import Mathlib

/-!
Verification development for the gorm-plus generic repository
(`gorm_plus.go`, package `gormplus`).

The package is a thin wrapper over an external relational-mapping
collaborator (GORM).  We embed it shallowly:

* `DB` models a `*gorm.DB` query-builder value as the ordered list of
  builder calls (`QOp`) performed on it.  Raw SQL conditions passed to
  `Where`/`WhereEq` are abstracted as row predicates `Row → Bool`.
* `Scope` is `Option (DB → DB)`: a Go function value of type
  `func(*gorm.DB) *gorm.DB`, which may be `nil` (`none`).
* Each repository operation is a pure function of its Go arguments plus
  the collaborator's response(s) to the finisher calls it makes
  (`Except GormErr α` oracles); it returns the Go result together with
  the trace of finisher calls (`CollabCall`) it issued, in order.
  An operation that returns before reaching the collaborator has an
  empty trace, hence cannot modify any store (`runCalls`).
* Go errors: the package's four sentinel errors and collaborator errors
  are distinct Go values; we model the error vocabulary as the sum
  `Err`, with `Err.collab` embedding a collaborator error unchanged.
* Go `int`/`int64` arithmetic is 64-bit two's-complement; products that
  can overflow are wrapped with `wrap64`.
-/

namespace GormPlus

/-- Two's-complement wrap-around of a mathematical integer into the
signed 64-bit range, as performed by Go `int`/`int64` multiplication. -/
def wrap64 (x : Int) : Int := (x + 2 ^ 63) % 2 ^ 64 - 2 ^ 63

/-- Abstract entity/row value (the concrete struct `T` plays no role in
the claims, only row identity does). -/
abbrev Row := Nat

/-- Builder calls recorded on a query-builder chain.  A raw SQL
condition (string plus arguments, or an equality map) is abstracted as
the row predicate it denotes. -/
inductive QOp where
  | withContext
  | model
  | whereClause (pred : Row → Bool)
  | order (expr : String)
  | selectCols (cols : List String)
  | limit (n : Int)
  | offset (n : Int)
  | unscoped
  | locking (strength : String)

/-- A `*gorm.DB` query-builder value: the ordered list of builder calls
that produced it. -/
structure DB where
  ops : List QOp

/-- Builder method `WithContext(ctx)`; the context itself carries no
information relevant to the claims, only the call is recorded. -/
def DB.withContext (db : DB) : DB := ⟨db.ops ++ [.withContext]⟩

/-- Builder method `Model(new(T))`. -/
def DB.model (db : DB) : DB := ⟨db.ops ++ [.model]⟩

/-- Builder method `Where(...)`, with its condition abstracted as a row
predicate. -/
def DB.whereCond (db : DB) (p : Row → Bool) : DB := ⟨db.ops ++ [.whereClause p]⟩

/-- Builder method `Order(expr)`. -/
def DB.order (db : DB) (e : String) : DB := ⟨db.ops ++ [.order e]⟩

/-- Builder method `Select(cols)`. -/
def DB.selectCols (db : DB) (cols : List String) : DB := ⟨db.ops ++ [.selectCols cols]⟩

/-- Builder method `Limit(n)`. -/
def DB.limit (db : DB) (n : Int) : DB := ⟨db.ops ++ [.limit n]⟩

/-- Builder method `Offset(n)`. -/
def DB.offset (db : DB) (n : Int) : DB := ⟨db.ops ++ [.offset n]⟩

/-- Builder method `Unscoped()`. -/
def DB.unscoped (db : DB) : DB := ⟨db.ops ++ [.unscoped]⟩

/-- Builder method `Clauses(clause.Locking{Strength: s})`. -/
def DB.clauses (db : DB) (s : String) : DB := ⟨db.ops ++ [.locking s]⟩

/-- The `Scope` type of the source: `type Scope func(*gorm.DB) *gorm.DB`.
A Go function value may be `nil`, modelled by `none`. -/
abbrev Scope := Option (DB → DB)

/-- Scope constructor `Where(query, args...)`; the raw condition and its
arguments are abstracted as the row predicate they denote. -/
def Where (p : Row → Bool) : Scope := some fun db => db.whereCond p

/-- Scope constructor `WhereEq(m)`; the column-to-value equality map is
abstracted as the row predicate it denotes. -/
def WhereEq (m : Row → Bool) : Scope := some fun db => db.whereCond m

/-- Scope constructor `Order(order)`. -/
def Order (e : String) : Scope := some fun db => db.order e

/-- Scope constructor `Select(cols...)`. -/
def Select (cols : List String) : Scope := some fun db => db.selectCols cols

/-- Scope constructor `Limit(n)`. -/
def Limit (n : Int) : Scope := some fun db => db.limit n

/-- Scope constructor `Offset(n)`. -/
def Offset (n : Int) : Scope := some fun db => db.offset n

/-- Scope constructor `WithDeleted()` (GORM `Unscoped`). -/
def WithDeleted : Scope := some fun db => db.unscoped

/-- Scope constructor `OnlyDeleted()`: `Unscoped` followed by
`Where("deleted_at IS NOT NULL")`; the SQL string is abstracted as the
row predicate `deletedPred` it denotes. -/
def OnlyDeleted (deletedPred : Row → Bool) : Scope :=
  some fun db => (db.unscoped).whereCond deletedPred

/-- The generic repository `Repo[T]`: owns a (session-scoped) database
handle. -/
structure Repo where
  db : DB

/-- Method `sc`: base query `r.db.WithContext(ctx).Model(new(T))`, then
the Go loop `for _, s := range scopes { if s != nil { db = s(db) } }`. -/
def sc (r : Repo) (scopes : List Scope) : DB :=
  let db := (r.db.withContext).model
  scopes.foldl (fun db s => match s with | none => db | some f => f db) db

/-- Method `scWithTX`: like `sc` but starting from the transaction
handle when one is supplied (`if db == nil { db = r.db }`). -/
def scWithTX (r : Repo) (tx : Option DB) (scopes : List Scope) : DB :=
  let db := match tx with | none => r.db | some d => d
  let q := (db.withContext).model
  scopes.foldl (fun q s => match s with | none => q | some f => f q) q

/-- Sequential application of non-nil scope functions, used to state
what the `sc`/`scWithTX` loops compute. -/
def applyFns (db : DB) (fs : List (DB → DB)) : DB := fs.foldl (fun q f => f q) db

lemma foldl_scopes_eq_applyFns (scopes : List Scope) (db : DB) :
    scopes.foldl (fun db s => match s with | none => db | some f => f db) db
      = applyFns db scopes.reduceOption := by
  induction scopes generalizing db with
  | nil => rfl
  | cons s rest ih =>
    cases s with
    | none => simpa [List.reduceOption] using ih db
    | some f => simpa [List.reduceOption, applyFns] using ih (f db)

lemma foldl_scopes_skip_none (pre post : List Scope) (db : DB) :
    (pre ++ none :: post).foldl
        (fun db s => match s with | none => db | some f => f db) db
      = (pre ++ post).foldl
        (fun db s => match s with | none => db | some f => f db) db := by
  induction pre generalizing db with
  | nil => rfl
  | cons s rest ih =>
    cases s with
    | none => exact ih db
    | some f => exact ih (f db)

/-- C8: for every query operation, the base query is transformed by
applying the supplied scope functions strictly in order, and a nil scope
is the identity: `sc` and `scWithTX` compute the in-order fold of the
non-nil scope functions over the base query, and inserting a nil scope
anywhere in the list leaves the built query unchanged. -/
theorem scopes_applied_in_order_nil_skipped :
    ∀ (r : Repo) (tx : Option DB) (scopes : List Scope),
      (sc r scopes = applyFns ((r.db.withContext).model) scopes.reduceOption
        ∧ scWithTX r tx scopes
            = applyFns ((((match tx with | none => r.db | some d => d)).withContext).model)
                scopes.reduceOption)
      ∧ ∀ (pre post : List Scope),
          (sc r (pre ++ none :: post) = sc r (pre ++ post)
            ∧ scWithTX r tx (pre ++ none :: post) = scWithTX r tx (pre ++ post)) := by
  intro r tx scopes
  refine ⟨⟨?_, ?_⟩, ?_⟩
  · exact foldl_scopes_eq_applyFns scopes _
  · exact foldl_scopes_eq_applyFns scopes _
  · intro pre post
    exact ⟨foldl_scopes_skip_none pre post _, foldl_scopes_skip_none pre post _⟩

/-- Errors returned by the external collaborator (GORM): the
distinguished `gorm.ErrRecordNotFound`, or any other failure
(identified by an abstract code). -/
inductive GormErr where
  | recordNotFound
  | other (code : Nat)
deriving DecidableEq, Repr

/-- The error vocabulary seen by callers of this package: the four
package sentinel errors, or a collaborator error surfaced verbatim
(`Err.collab e` is the unchanged Go error value `e`; Go sentinel errors
and collaborator errors are distinct values). -/
inductive Err where
  | invalidType
  | notFound
  | txRequired
  | dangerous
  | collab (e : GormErr)
deriving DecidableEq, Repr

/-- Finisher calls an operation issues to the collaborator, each
carrying the fully built query it executes. -/
inductive CollabCall where
  | first (q : DB)
  | find (q : DB)
  | count (q : DB)
  | updateCol (q : DB) (column : String)
  | updates (q : DB)
  | del (q : DB)
  | createInBatches (q : DB) (n : Nat) (size : Int)

/-- Effect of a trace of collaborator calls on an abstract row store,
for an arbitrary interpretation `applyCall` of single calls.  An
operation with an empty trace leaves every store untouched under every
interpretation. -/
def runCalls (applyCall : List Row → CollabCall → List Row)
    (store : List Row) (calls : List CollabCall) : List Row :=
  calls.foldl applyCall store

/-- Method `First`: builds the scoped query, issues a `First` finisher
call; `errors.Is(err, gorm.ErrRecordNotFound)` is mapped to
`ErrNotFound`, any other error is returned unchanged. -/
def First (r : Repo) (scopes : List Scope) (resp : Except GormErr Row) :
    Except Err Row × List CollabCall :=
  let q := sc r scopes
  match resp with
  | .error e =>
      if e = .recordNotFound then (.error .notFound, [.first q])
      else (.error (.collab e), [.first q])
  | .ok v => (.ok v, [.first q])

/-- Method `Count`: builds the scoped query, issues a `Count` finisher
call; errors pass through. -/
def Count (r : Repo) (scopes : List Scope) (resp : Except GormErr Int) :
    Except Err Int × List CollabCall :=
  let q := sc r scopes
  match resp with
  | .error e => (.error (.collab e), [.count q])
  | .ok total => (.ok total, [.count q])

/-- Method `Exists` (primed here only because the source's name would
shadow the existential quantifier): builds the scoped query, appends
`Limit(1)`, issues a `Count` finisher call and interprets the count as
`count > 0`. -/
def Exists' (r : Repo) (scopes : List Scope) (resp : Except GormErr Int) :
    Except Err Bool × List CollabCall :=
  let q := (sc r scopes).limit 1
  match resp with
  | .error e => (.error (.collab e), [.count q])
  | .ok count => (.ok (decide (count > 0)), [.count q])

/-- Method `UpdateColumn`: guard `if len(scopes) == 0 { return
ErrDangerous }`, then an `Update(column, value)` finisher call on the
transaction-aware scoped query (the updated value is irrelevant to the
claims and omitted). -/
def UpdateColumn (r : Repo) (tx : Option DB) (column : String)
    (scopes : List Scope) (resp : Except GormErr Unit) :
    Except Err Unit × List CollabCall :=
  if scopes.length = 0 then (.error .dangerous, [])
  else
    let q := scWithTX r tx scopes
    match resp with
    | .error e => (.error (.collab e), [.updateCol q column])
    | .ok _ => (.ok (), [.updateCol q column])

/-- Method `UpdateColumns`: same guard, then an `Updates(updates)`
finisher call (the updates payload is irrelevant to the claims and
omitted). -/
def UpdateColumns (r : Repo) (tx : Option DB) (scopes : List Scope)
    (resp : Except GormErr Unit) : Except Err Unit × List CollabCall :=
  if scopes.length = 0 then (.error .dangerous, [])
  else
    let q := scWithTX r tx scopes
    match resp with
    | .error e => (.error (.collab e), [.updates q])
    | .ok _ => (.ok (), [.updates q])

/-- Method `Delete`: same guard, then a `Delete(new(T))` finisher call. -/
def Delete (r : Repo) (tx : Option DB) (scopes : List Scope)
    (resp : Except GormErr Unit) : Except Err Unit × List CollabCall :=
  if scopes.length = 0 then (.error .dangerous, [])
  else
    let q := scWithTX r tx scopes
    match resp with
    | .error e => (.error (.collab e), [.del q])
    | .ok _ => (.ok (), [.del q])

/-- Method `BatchInsert`: no-op on an empty entity list; otherwise one
`CreateInBatches(ents, size)` finisher call on `db.WithContext(ctx)`,
where `db` is the transaction when supplied, and `size` is the first
optional `batchSize` argument, with `1000` substituted when the
argument list is empty or the value is `0`. -/
def BatchInsert (r : Repo) (tx : Option DB) (ents : List Row)
    (batchSize : List Int) (resp : Except GormErr Unit) :
    Except Err Unit × List CollabCall :=
  if ents.length = 0 then (.ok (), [])
  else
    let db := match tx with | none => r.db | some d => d
    let size := 1000
    let size := match batchSize with | [] => size | b :: _ => b
    let size := if size = 0 then 1000 else size
    match resp with
    | .error e => (.error (.collab e), [.createInBatches db.withContext ents.length size])
    | .ok _ => (.ok (), [.createInBatches db.withContext ents.length size])

/-- Method `FirstForUpdate`: `ErrTxRequired` when no transaction is
supplied; otherwise appends a `FOR UPDATE` locking scope, issues a
`First` finisher call, mapping record-not-found to `ErrNotFound`. -/
def FirstForUpdate (r : Repo) (tx : Option DB) (scopes : List Scope)
    (resp : Except GormErr Row) : Except Err Row × List CollabCall :=
  match tx with
  | none => (.error .txRequired, [])
  | some _ =>
      let scopes := scopes ++ [some (fun d : DB => d.clauses "UPDATE")]
      let q := scWithTX r tx scopes
      match resp with
      | .error e =>
          if e = .recordNotFound then (.error .notFound, [.first q])
          else (.error (.collab e), [.first q])
      | .ok v => (.ok v, [.first q])

/-- Method `FindForUpdate`: `ErrTxRequired` when no transaction is
supplied; otherwise appends a `FOR UPDATE` locking scope and issues a
`Find` finisher call; errors pass through. -/
def FindForUpdate (r : Repo) (tx : Option DB) (scopes : List Scope)
    (resp : Except GormErr (List Row)) :
    Except Err (List Row) × List CollabCall :=
  match tx with
  | none => (.error .txRequired, [])
  | some _ =>
      let scopes := scopes ++ [some (fun d : DB => d.clauses "UPDATE")]
      let q := scWithTX r tx scopes
      match resp with
      | .error e => (.error (.collab e), [.find q])
      | .ok rows => (.ok rows, [.find q])

/-- The paginated query result `PageResult[T]`. -/
structure PageResult where
  Items : List Row
  Total : Int
  Page : Int
  PageSize : Int
  HasNext : Bool
deriving Repr

/-- Method `Page`: normalizes `page` and `pageSize`, obtains the total
via `Count` with the caller's scopes, then fetches the page's items via
a `Find` finisher call with `Limit(pageSize)` and `Offset((page-1)*pageSize)`
appended after the caller's scopes.  The `int` products are Go 64-bit
arithmetic, hence `wrap64`. -/
def Page (r : Repo) (page pageSize : Int) (scopes : List Scope)
    (countResp : Except GormErr Int) (findResp : Except GormErr (List Row)) :
    Except Err PageResult × List CollabCall :=
  let page := if page ≤ 0 then 1 else page
  let pageSize := if pageSize ≤ 0 then 20 else pageSize
  let pageSize := if pageSize > 1000 then 1000 else pageSize
  match Count r scopes countResp with
  | (.error e, tr) => (.error e, tr)
  | (.ok total, tr) =>
      let offset := wrap64 ((page - 1) * pageSize)
      let q := scopes ++ [Limit pageSize, Offset offset]
      match findResp with
      | .error e => (.error (.collab e), tr ++ [.find (sc r q)])
      | .ok items =>
          (.ok { Items := items, Total := total, Page := page,
                 PageSize := pageSize,
                 HasNext := decide (wrap64 (page * pageSize) < total) },
           tr ++ [.find (sc r q)])

/-- Go reflection kinds relevant to `NewRepo`'s validation. -/
inductive GoKind where
  | pointer
  | struct'
  | interface'
  | string'
  | int'
  | bool'
  | slice
  | map'
  | array'
  | func'
deriving DecidableEq, Repr

/-- Model of `reflect.TypeOf(zero)` for `var zero T`: when `T` is an
interface kind the zero value is a nil interface value, so
`reflect.TypeOf` returns a nil `reflect.Type` (`none`); otherwise it
returns the reflected type of `T` itself. -/
def reflectTypeOfZero (k : GoKind) : Option GoKind :=
  match k with
  | .interface' => none
  | k => some k

/-- Possible outcomes of constructing a repository. -/
inductive ConstructOutcome where
  | ok
  | err (e : Err)
  | panics
deriving DecidableEq, Repr

/-- Function `NewRepo[T]`: reflects the zero value of `T`, rejects a
pointer kind and then any non-struct kind with `ErrInvalidType`, else
succeeds with a repository.  Calling `Kind()` on the nil
`reflect.Type` obtained for an interface kind dereferences a nil
pointer and panics. -/
def NewRepo (k : GoKind) : ConstructOutcome :=
  match reflectTypeOfZero k with
  | none => .panics
  | some t =>
      if t = .pointer then .err .invalidType
      else if t ≠ .struct' then .err .invalidType
      else .ok

/-- Row predicate accumulated by a built query: the conjunction of all
`whereClause` conditions recorded on it. -/
def matchesQuery (q : DB) (row : Row) : Bool :=
  q.ops.all fun op => match op with | .whereClause p => p row | _ => true

/-- Effective limit of a built query: the last `limit` builder call, if
any (a later `Limit` overrides an earlier one, as in the collaborator). -/
def limitOf (q : DB) : Option Int :=
  q.ops.foldl (fun acc op => match op with | .limit n => some n | _ => acc) none

/-- Effective offset of a built query: the last `offset` builder call,
if any. -/
def offsetOf (q : DB) : Option Int :=
  q.ops.foldl (fun acc op => match op with | .offset n => some n | _ => acc) none

/-- Interpretation of the external collaborator's `Count` primitive
over an abstract row store: the rows satisfying the query's conditions,
after the effective offset, counted up to the effective limit.  The
collaborator (GORM and the SQL engine) is outside this repository; this
interprets its counting of a limited query. -/
def semCount (store : List Row) (q : DB) : Int :=
  let rows := store.filter (matchesQuery q)
  let rows := match offsetOf q with | none => rows | some n => rows.drop n.toNat
  let rows := match limitOf q with | none => rows | some n => rows.take n.toNat
  (rows.length : Int)

/-- A concrete repository over a fresh handle, for concrete
evaluations. -/
def repo0 : Repo := ⟨⟨[]⟩⟩

/-- C1 counterexample: a scope list consisting of a single nil scope
contains no non-nil Scope, yet `UpdateColumn`, `UpdateColumns` and
`Delete` do not return the dangerous-operation error on it: the guard
only tests emptiness, so the operations proceed to the collaborator. -/
theorem nil_scope_list_passes_danger_guard :
    (UpdateColumn repo0 none "name" [none] (.ok ())).1 = .ok ()
    ∧ (UpdateColumns repo0 none [none] (.ok ())).1 = .ok ()
    ∧ (Delete repo0 none [none] (.ok ())).1 = .ok ()
    ∧ (Except.ok () : Except Err Unit) ≠ .error .dangerous :=
  ⟨rfl, rfl, rfl, by simp⟩

/-- C1 (amended): for every call to `UpdateColumn`, `UpdateColumns`, or
`Delete` whose scope list is empty, the operation returns the
dangerous-operation error, performs no collaborator call, and leaves
every store unmodified under every interpretation of collaborator
calls. -/
theorem empty_scopes_dangerous_no_write :
    ∀ (r : Repo) (tx : Option DB) (col : String) (resp : Except GormErr Unit),
      UpdateColumn r tx col [] resp = (.error .dangerous, [])
      ∧ UpdateColumns r tx [] resp = (.error .dangerous, [])
      ∧ Delete r tx [] resp = (.error .dangerous, [])
      ∧ ∀ (applyCall : List Row → CollabCall → List Row) (store : List Row),
          runCalls applyCall store (UpdateColumn r tx col [] resp).2 = store
          ∧ runCalls applyCall store (UpdateColumns r tx [] resp).2 = store
          ∧ runCalls applyCall store (Delete r tx [] resp).2 = store := by
  intro r tx col resp
  refine ⟨rfl, rfl, rfl, fun applyCall store => ⟨rfl, rfl, rfl⟩⟩

/-- C2: `FirstForUpdate` and `FindForUpdate` with a nil transaction
return the transaction-required error and perform no collaborator call
(so every store is untouched); with a non-nil transaction the
transaction-required error is never returned, whatever the
collaborator responds. -/
theorem forUpdate_tx_guard :
    ∀ (r : Repo) (scopes : List Scope) (resp : Except GormErr Row)
      (resps : Except GormErr (List Row)),
      FirstForUpdate r none scopes resp = (.error .txRequired, [])
      ∧ FindForUpdate r none scopes resps = (.error .txRequired, [])
      ∧ (∀ (applyCall : List Row → CollabCall → List Row) (store : List Row),
          runCalls applyCall store (FirstForUpdate r none scopes resp).2 = store
          ∧ runCalls applyCall store (FindForUpdate r none scopes resps).2 = store)
      ∧ ∀ tx : DB,
          (FirstForUpdate r (some tx) scopes resp).1 ≠ .error .txRequired
          ∧ (FindForUpdate r (some tx) scopes resps).1 ≠ .error .txRequired := by
  intro r scopes resp resps
  refine ⟨rfl, rfl, fun applyCall store => ⟨rfl, rfl⟩, fun tx => ⟨?_, ?_⟩⟩
  · cases resp with
    | error e =>
        by_cases h : e = .recordNotFound <;> simp [FirstForUpdate, h]
    | ok v => simp [FirstForUpdate]
  · cases resps with
    | error e => simp [FindForUpdate]
    | ok rows => simp [FindForUpdate]

/-- C5: `First`, and `FirstForUpdate` with a non-nil transaction, map a
record-not-found collaborator error to the not-found error and return
any other collaborator error to the caller unchanged (`Err.collab e` is
the unchanged collaborator error value `e`). -/
theorem first_error_mapping :
    ∀ (r : Repo) (scopes : List Scope) (e : GormErr) (tx : DB),
      (First r scopes (.error e)).1
        = .error (if e = .recordNotFound then .notFound else .collab e)
      ∧ (FirstForUpdate r (some tx) scopes (.error e)).1
        = .error (if e = .recordNotFound then .notFound else .collab e) := by
  intro r scopes e tx
  constructor <;> by_cases h : e = .recordNotFound <;>
    simp [First, FirstForUpdate, h]

/-- C6 counterexample: an interface kind is a non-struct entity type
parameter, yet constructing a repository with it does not fail with the
invalid-type error: it panics. -/
theorem newRepo_interface_not_invalidType :
    NewRepo .interface' ≠ .err .invalidType ∧ NewRepo .interface' = .panics :=
  ⟨by decide, rfl⟩

/-- C6 (amended): constructing a repository fails with the invalid-type
error whenever the entity type parameter is a pointer kind or any
non-struct, non-interface kind, and succeeds when it is a struct kind;
an interface kind instead panics (see C10). -/
theorem newRepo_validation :
    ∀ k : GoKind, k ≠ .interface' →
      ((k = .pointer ∨ k ≠ .struct') → NewRepo k = .err .invalidType)
      ∧ (k = .struct' → NewRepo k = .ok) := by
  intro k hk
  cases k <;> first
    | decide
    | exact absurd rfl hk

/-- C6 witness: the amended validation at the pointer, string and
struct kinds. -/
theorem newRepo_validation_witness :
    NewRepo .pointer = .err .invalidType
    ∧ NewRepo .string' = .err .invalidType
    ∧ NewRepo .struct' = .ok :=
  ⟨(newRepo_validation .pointer (by decide)).1 (Or.inl rfl),
   (newRepo_validation .string' (by decide)).1 (Or.inr (by decide)),
   (newRepo_validation .struct' (by decide)).2 rfl⟩

/-- C10: constructing a repository whose entity type parameter is an
interface kind panics, because the reflected type of the zero value of
an interface type is nil and `Kind()` is called on it. -/
theorem newRepo_interface_panics :
    reflectTypeOfZero .interface' = none ∧ NewRepo .interface' = .panics :=
  ⟨rfl, rfl⟩

/-- C7: `BatchInsert` on an empty entity list returns no error and
performs no collaborator call (every store is left unmodified); on a
non-empty list it issues one batched-insert call whose chunk size is
1000 when the optional batch-size argument is absent or equal to 0, and
the given value otherwise. -/
theorem batchInsert_empty_and_chunk_size :
    ∀ (r : Repo) (tx : Option DB) (bs : List Int) (resp : Except GormErr Unit)
      (e : Row) (es : List Row),
      BatchInsert r tx [] bs resp = (.ok (), [])
      ∧ (∀ (applyCall : List Row → CollabCall → List Row) (store : List Row),
          runCalls applyCall store (BatchInsert r tx [] bs resp).2 = store)
      ∧ (BatchInsert r tx (e :: es) [] resp).2
          = [.createInBatches ((match tx with | none => r.db | some d => d).withContext)
              (e :: es).length 1000]
      ∧ ∀ (b : Int) (t : List Int),
          (BatchInsert r tx (e :: es) (b :: t) resp).2
            = [.createInBatches ((match tx with | none => r.db | some d => d).withContext)
                (e :: es).length (if b = 0 then 1000 else b)] := by
  intro r tx bs resp e es
  refine ⟨rfl, fun applyCall store => rfl, ?_, ?_⟩
  · cases resp <;> simp [BatchInsert]
  · intro b t
    by_cases hb : b = 0 <;> cases resp <;> simp [BatchInsert, hb]

lemma pageSizeNorm_eq (pageSize : Int) :
    (if (if pageSize ≤ 0 then 20 else pageSize) > 1000 then 1000
      else (if pageSize ≤ 0 then 20 else pageSize))
      = (if pageSize ≤ 0 then 20 else min pageSize 1000) := by
  split_ifs <;> omega

/-- C3 counterexample: at `page = 2^62`, `pageSize = 4` and a
collaborator total of `5`, the Go product `page * pageSize` wraps
around to `0`, so the code sets `HasNext = true`, while the claim's
mathematical product `2^62 * 4` is not less than `5`. -/
theorem page_hasNext_overflow_cex :
    (Page repo0 ((2 : Int) ^ 62) 4 [] (.ok 5) (.ok [])).1
      = .ok { Items := [], Total := 5, Page := (2 : Int) ^ 62, PageSize := 4,
              HasNext := true }
    ∧ ¬ ((2 : Int) ^ 62 * 4 < 5) := by
  exact ⟨rfl, by decide⟩

/-- C3 (amended): for every `page` and `pageSize`, `Page` uses
`page' = 1` when `page ≤ 0` else `page`, `pageSize' = 20` when
`pageSize ≤ 0` else `min pageSize 1000`, and the returned result has
`Page = page'`, `PageSize = pageSize'`, and `HasNext` true iff the
64-bit wrapped product of `page'` and `pageSize'` is less than `Total`
(`wrap64` is the identity on products within the signed 64-bit range,
so this is the plain product whenever it does not overflow). -/
theorem page_normalization_and_hasNext :
    ∀ (r : Repo) (page pageSize total : Int) (items : List Row)
      (scopes : List Scope),
      ((Page r page pageSize scopes (.ok total) (.ok items)).1
        = .ok { Items := items, Total := total,
                Page := if page ≤ 0 then 1 else page,
                PageSize := if pageSize ≤ 0 then 20 else min pageSize 1000,
                HasNext := decide (wrap64 ((if page ≤ 0 then 1 else page)
                    * (if pageSize ≤ 0 then 20 else min pageSize 1000)) < total) })
      ∧ ∀ prod : Int, -2 ^ 63 ≤ prod → prod < 2 ^ 63 → wrap64 prod = prod := by
  intro r page pageSize total items scopes
  constructor
  · simp only [Page, Count]
    rw [pageSizeNorm_eq]
  · intro prod h1 h2
    unfold wrap64
    omega

/-- C3 witness: the amended statement at `page = 0`, `pageSize = 0`,
total `5`, and the wrap identity at the in-range product `20`. -/
theorem page_normalization_witness :
    ((Page repo0 0 0 [] (.ok 5) (.ok [])).1
      = .ok { Items := [], Total := 5,
              Page := if (0 : Int) ≤ 0 then 1 else 0,
              PageSize := if (0 : Int) ≤ 0 then 20 else min 0 1000,
              HasNext := decide (wrap64 ((if (0 : Int) ≤ 0 then 1 else 0)
                  * (if (0 : Int) ≤ 0 then 20 else min 0 1000)) < 5) })
    ∧ wrap64 20 = 20 := by
  have h := page_normalization_and_hasNext repo0 0 0 5 [] []
  exact ⟨h.1, h.2 20 (by decide) (by decide)⟩

/-- C4: `Page` executes exactly two collaborator queries: first a
`Count` with the caller's scopes, whose value becomes `Total`, then a
fetch with the same scopes plus `Limit(pageSize')` and
`Offset((page' - 1) * pageSize')` appended after them (the offset
argument being the Go 64-bit product), whose rows become `Items`. -/
theorem page_trace_two_queries :
    ∀ (r : Repo) (page pageSize total : Int) (items : List Row)
      (scopes : List Scope),
      (Page r page pageSize scopes (.ok total) (.ok items)).2
        = [.count (sc r scopes),
           .find (sc r (scopes ++
              [Limit (if pageSize ≤ 0 then 20 else min pageSize 1000),
               Offset (wrap64 (((if page ≤ 0 then 1 else page) - 1)
                  * (if pageSize ≤ 0 then 20 else min pageSize 1000)))]))]
      ∧ (Page r page pageSize scopes (.ok total) (.ok items)).1.map PageResult.Items
          = .ok items
      ∧ (Page r page pageSize scopes (.ok total) (.ok items)).1.map PageResult.Total
          = .ok total := by
  intro r page pageSize total items scopes
  refine ⟨?_, ?_, ?_⟩
  · simp only [Page, Count]
    rw [pageSizeNorm_eq]
    simp
  · simp only [Page, Count]
    simp [Except.map]
  · simp only [Page, Count]
    simp [Except.map]

lemma foldl_where_scopes (preds : List (Row → Bool)) (db : DB) :
    (preds.map Where).foldl
        (fun q s => match s with | none => q | some f => f q) db
      = ⟨db.ops ++ preds.map QOp.whereClause⟩ := by
  induction preds generalizing db with
  | nil => simp
  | cons p rest ih =>
      simp [Where, DB.whereCond, ih, List.append_assoc]

lemma foldl_where_keeps_limit_acc (preds : List (Row → Bool)) (acc : Option Int) :
    (preds.map QOp.whereClause).foldl
        (fun acc op => match op with | QOp.limit n => some n | _ => acc) acc
      = acc := by
  induction preds generalizing acc with
  | nil => rfl
  | cons p rest ih => simpa using ih acc

lemma foldl_where_keeps_offset_acc (preds : List (Row → Bool)) (acc : Option Int) :
    (preds.map QOp.whereClause).foldl
        (fun acc op => match op with | QOp.offset n => some n | _ => acc) acc
      = acc := by
  induction preds generalizing acc with
  | nil => rfl
  | cons p rest ih => simpa using ih acc

lemma all_where_matches (preds : List (Row → Bool)) (row : Row) :
    ((preds.map QOp.whereClause).all fun op =>
        match op with | QOp.whereClause p => p row | _ => true)
      = preds.all fun p => p row := by
  induction preds with
  | nil => rfl
  | cons p rest ih => simp only [List.map_cons, List.all_cons, ih]

/-- C9: `Exists` succeeds whenever its collaborator count succeeds, and
returns true iff the count produced by the collaborator for the scoped
query with `Limit(1)` appended is greater than 0; in particular, under
the collaborator's counting semantics over a row store, `Exists` on a
list of `Where` scopes is true iff at least one record matches them. -/
theorem exists_is_limited_count_positive :
    ∀ (r : Repo) (scopes : List Scope) (n : Int),
      (Exists' r scopes (.ok n)
          = (.ok (decide (n > 0)), [.count ((sc r scopes).limit 1)]))
      ∧ ∀ (store : List Row) (preds : List (Row → Bool)),
          (Exists' repo0 (preds.map Where)
              (.ok (semCount store ((sc repo0 (preds.map Where)).limit 1)))).1
            = .ok (decide (∃ row ∈ store, ∀ p ∈ preds, p row = true)) := by
  intro r scopes n
  refine ⟨rfl, ?_⟩
  intro store preds
  have hops : ((sc repo0 (preds.map Where)).limit 1).ops
      = [QOp.withContext, QOp.model] ++ preds.map QOp.whereClause
          ++ [QOp.limit 1] := by
    simp [sc, repo0, DB.withContext, DB.model, DB.limit, foldl_where_scopes]
  have hlim : limitOf ((sc repo0 (preds.map Where)).limit 1) = some 1 := by
    simp [limitOf, hops, List.foldl_append, foldl_where_keeps_limit_acc]
  have hofs : offsetOf ((sc repo0 (preds.map Where)).limit 1) = none := by
    simp [offsetOf, hops, List.foldl_append, foldl_where_keeps_offset_acc]
  have hfun : matchesQuery ((sc repo0 (preds.map Where)).limit 1)
      = fun row => preds.all fun p => p row := by
    funext row
    simp [matchesQuery, hops, all_where_matches]
  have hcount : semCount store ((sc repo0 (preds.map Where)).limit 1)
      = (((store.filter fun row => preds.all fun p => p row).take 1).length : Int) := by
    simp [semCount, hlim, hofs, hfun]
  simp only [Exists', hcount]
  congr 1
  rw [decide_eq_decide]
  simp [gt_iff_lt, Int.natCast_pos, List.length_take, lt_min_iff,
    List.length_pos_iff_exists_mem, List.mem_filter, List.all_eq_true]

end GormPlus
